import Mathlib

/-!
Shallow embedding of the audiobook generator (src/main.py) and proofs of the
spec claims about it.

Modelling conventions:
- Raw audio byte strings are lists of byte values (`List Nat`).
- Python floats (running time in milliseconds, `duration_seconds`) are
  modelled as rationals, so the timestamp arithmetic is exact.
- External collaborators (the TTS stream, the mp3 decoder, the image
  library, the file system, the muxer process) enter the definitions as
  explicit oracle parameters; the control flow around them is translated
  from the source.
-/

namespace AudiobookTTS

/-! ## Constants (src/main.py lines 20-22) -/

def PARAGRAPH_PAUSE_DURATION : Nat := 500

def CHAPTER_TITLE_PAUSE_DURATION : Nat := 900

def CHAPTER_PAUSE_DURATION : Nat := 2000

/-! ## AudioHelper (src/main.py lines 39-60) -/

/-- Raw audio bytes. -/
abbrev RawAudio := List Nat

/-- Embedding of `AudioHelper.generate_pause(time) = AudioSegment.silent(time).raw_data`.
The wrapped library call `AudioSegment.silent(duration)` (pydub, called here
without a `frame_rate` argument) builds `int(frame_rate * duration / 1000)`
frames at its default `frame_rate = 11025`, each frame being two zero bytes
(16-bit mono), and `raw_data` returns those bytes. -/
def generate_pause (time : Nat) : RawAudio :=
  List.replicate (2 * (11025 * time / 1000)) 0

/-- Embedding of `AudioHelper.insert_pauses(items, time)`: the Python loop
appends each item of `items[:-1]` followed by a pause, then appends
`items[-1]`; an empty input returns `[]`. -/
def insert_pauses : List RawAudio → Nat → List RawAudio
  | [], _ => []
  | [x], _ => [x]
  | x :: y :: rest, time => x :: generate_pause time :: insert_pauses (y :: rest) time

/-- Sample parameters of `AudioHelper.bytes2audio` (src/main.py lines 55-60):
the pipeline decodes raw bytes as 16-bit signed samples (`sample_width=2`),
mono (`channels=1`), at 24 kHz (`frame_rate=24000`). -/
def PIPELINE_FRAME_RATE : Nat := 24000

def PIPELINE_SAMPLE_WIDTH : Nat := 2

def PIPELINE_CHANNELS : Nat := 1

/-! ## Chapter (src/main.py lines 63-80) -/

structure Chapter where
  id : String
  title : String
  paragraphs : List String
  start_time : Option ℚ
  end_time : Option ℚ
deriving Repr, DecidableEq

/-- Embedding of `Chapter.__init__`: the stored title falls back to
`chapter-<id>.mp3` when the given title is falsy (empty). Timestamps start
unset. -/
def Chapter.init (id : String) (title : String) (paragraphs : List String) : Chapter :=
  { id := id
    title := if title = "" then "chapter-" ++ id ++ ".mp3" else title
    paragraphs := paragraphs
    start_time := none
    end_time := none }

/-- Rendering of a timestamp value inside the metadata text. In Python the
f-string interpolates the attribute, printing the literal `None` when the
timestamp is unset; the numeric rendering of a set value is abstracted to
the ToString of the rational. -/
def timeValueStr : Option ℚ → String
  | none => "None"
  | some q => toString q

/-- Embedding of `Chapter.get_metadata_text`. The first component records
whether the `logging.error` call fired (it fires exactly when `start_time`
or `end_time` is `None`); the second is the returned text. -/
def Chapter.get_metadata_text (c : Chapter) : Bool × String :=
  (decide (c.start_time = none ∨ c.end_time = none),
    "\n[CHAPTER]\n" ++
    "TIMEBASE=1/1000\n" ++
    "START=" ++ timeValueStr c.start_time ++ "\n" ++
    "END=" ++ timeValueStr c.end_time ++ "\n" ++
    "title=" ++ c.title ++ "\n")

/-! ## TTS (src/main.py lines 133-169) -/

/-- Accumulation of the stream loop in `TTS.generate_audio`: bytes of chunks
whose type tag is `audio` are written in order; `WordBoundary` chunks are
only logged; any other tag is skipped. -/
def streamAudioBytes : List (String × RawAudio) → RawAudio
  | [] => []
  | chunk :: rest => (if chunk.1 = "audio" then chunk.2 else []) ++ streamAudioBytes rest

/-- Embedding of `TTS.generate_audio`: the concatenated audio bytes are fed
to the mp3 decoder (`AudioSegment.from_mp3`, an oracle returning `none` on
any decode exception); on failure the function returns
`AudioSegment.silent(0).raw_data`, which is empty. -/
def generate_audio (from_mp3 : RawAudio → Option RawAudio)
    (chunks : List (String × RawAudio)) : RawAudio :=
  match from_mp3 (streamAudioBytes chunks) with
  | some decoded => decoded
  | none => generate_pause 0

/-- Embedding of `TTS.chapter_to_audio`: the title (always truthy after
construction) is synthesized followed by the title pause, then the
paragraphs are synthesized with paragraph pauses interleaved and all buffers
concatenated. -/
def chapter_to_audio (synth : String → RawAudio) (c : Chapter) : RawAudio :=
  (if c.title ≠ "" then
    synth c.title ++ generate_pause CHAPTER_TITLE_PAUSE_DURATION
  else []) ++
  (insert_pauses (c.paragraphs.map synth) PARAGRAPH_PAUSE_DURATION).flatten

lemma streamAudioBytes_append (l1 l2 : List (String × RawAudio)) :
    streamAudioBytes (l1 ++ l2) = streamAudioBytes l1 ++ streamAudioBytes l2 := by
  induction l1 with
  | nil => simp [streamAudioBytes]
  | cons ch rest ih => simp [streamAudioBytes, ih]

lemma streamAudioBytes_eq_filter (chunks : List (String × RawAudio)) :
    streamAudioBytes chunks =
      ((chunks.filter fun ch => ch.1 == "audio").map Prod.snd).flatten := by
  induction chunks with
  | nil => rfl
  | cons ch rest ih =>
    by_cases h : ch.1 = "audio"
    · simp [streamAudioBytes, List.filter_cons, h, ih]
    · simp [streamAudioBytes, List.filter_cons, h, ih]

/-! ## Helper lemmas about insert_pauses -/

lemma insert_pauses_length (items : List RawAudio) (t : Nat) (h : items ≠ []) :
    (insert_pauses items t).length = 2 * items.length - 1 := by
  induction items with
  | nil => simp at h
  | cons x xs ih =>
    cases xs with
    | nil => simp [insert_pauses]
    | cons y rest =>
      have hlen := ih (by simp)
      simp only [insert_pauses, List.length_cons] at hlen ⊢
      omega

lemma insert_pauses_getElem? (items : List RawAudio) (t : Nat) (i : Nat)
    (h : i < 2 * items.length - 1) :
    (insert_pauses items t)[i]? =
      if i % 2 = 1 then some (generate_pause t) else items[i / 2]? := by
  induction items generalizing i with
  | nil => simp at h
  | cons x xs ih =>
    cases xs with
    | nil =>
      have : i = 0 := by simp at h; omega
      subst this
      simp [insert_pauses]
    | cons y rest =>
      match i with
      | 0 => simp [insert_pauses]
      | 1 => simp [insert_pauses]
      | (j + 2) =>
        have hj : j < 2 * (y :: rest).length - 1 := by
          simp only [List.length_cons] at h ⊢
          omega
        have step : (insert_pauses (x :: y :: rest) t)[j + 2]? =
            (insert_pauses (y :: rest) t)[j]? := by
          simp [insert_pauses]
        rw [step, ih j hj]
        have hmod : (j + 2) % 2 = j % 2 := by omega
        have hdiv : (j + 2) / 2 = j / 2 + 1 := by omega
        rw [hmod, hdiv]
        rcases Nat.mod_two_eq_zero_or_one j with h0 | h1
        · simp [h0]
        · simp [h1]

/-- C2: for every list of audio segments of length at least 2 and every pause
duration, `insert_pauses` returns exactly 2n-1 elements with the pause buffer
at every odd-indexed slot and the original segments at the even slots in
order; for every list of length at most 1 (including the empty list) it
returns the input unchanged. -/
theorem insert_pauses_spec (items : List RawAudio) (t : Nat) :
    (items.length ≤ 1 → insert_pauses items t = items) ∧
    (2 ≤ items.length →
      (insert_pauses items t).length = 2 * items.length - 1 ∧
      ∀ i, i < 2 * items.length - 1 →
        (insert_pauses items t)[i]? =
          if i % 2 = 1 then some (generate_pause t) else items[i / 2]?) := by
  constructor
  · intro h
    match items with
    | [] => rfl
    | [x] => rfl
    | x :: y :: rest => simp at h
  · intro h
    refine ⟨insert_pauses_length items t ?_, fun i hi => insert_pauses_getElem? items t i hi⟩
    intro hnil
    rw [hnil] at h
    simp at h

/-- Witness for C2 at concrete inputs: a singleton list is returned unchanged,
and a three-element list yields five slots with the pause at slot 1. -/
theorem insert_pauses_spec_witness :
    insert_pauses [[5]] 0 = [[5]] ∧
    (insert_pauses [[1], [2], [3]] 0).length = 2 * 3 - 1 ∧
    (insert_pauses [[1], [2], [3]] 0)[1]? = some (generate_pause 0) := by
  have h1 := (insert_pauses_spec [[5]] 0).1 (by decide)
  have h2 := (insert_pauses_spec [[1], [2], [3]] 0).2 (by decide)
  have h3 := h2.2 1 (by decide)
  simp only [List.length_cons, List.length_nil] at h2
  refine ⟨h1, h2.1, ?_⟩
  rw [h3]
  norm_num

/-- C3: evaluation of `generate_pause` at `duration_ms = 1000`. The code
produces `2 * (11025 * 1000 / 1000) = 22050` zero bytes, because the wrapped
`AudioSegment.silent` call uses its default frame rate of 11025 Hz; the
claimed byte length at the pipeline format of `bytes2audio` (16-bit mono
24 kHz) would be `1000 * 24000 * 2 / 1000 = 48000` bytes. -/
theorem generate_pause_failing_input :
    generate_pause 1000 = List.replicate 22050 0 ∧
    (generate_pause 1000).length = 22050 ∧
    1000 * PIPELINE_FRAME_RATE * PIPELINE_SAMPLE_WIDTH / 1000 = 48000 ∧
    (generate_pause 1000).length ≠
      1000 * PIPELINE_FRAME_RATE * PIPELINE_SAMPLE_WIDTH / 1000 := by
  have hlen : (generate_pause 1000).length = 22050 := by
    rw [generate_pause, List.length_replicate]
  refine ⟨rfl, hlen, by decide, ?_⟩
  rw [hlen]
  decide

/-- C7: when `start_time` or `end_time` is unset, `get_metadata_text` fires
the error log (first component true) while still returning the rendered text;
the rendered text is a function of start, end and title only, so repeated
calls with equal fields are byte-identical; and with both timestamps set the
text is exactly the fixed `[CHAPTER]` / `TIMEBASE=1/1000` / `START` / `END` /
`title` block. -/
theorem get_metadata_text_spec (c c' : Chapter) :
    ((c.start_time = none ∨ c.end_time = none) → (c.get_metadata_text).1 = true) ∧
    (c.start_time = c'.start_time → c.end_time = c'.end_time → c.title = c'.title →
      (c.get_metadata_text).2 = (c'.get_metadata_text).2) ∧
    (∀ s e, c.start_time = some s → c.end_time = some e →
      (c.get_metadata_text).2 =
        "\n[CHAPTER]\n" ++ "TIMEBASE=1/1000\n" ++
        "START=" ++ toString s ++ "\n" ++
        "END=" ++ toString e ++ "\n" ++
        "title=" ++ c.title ++ "\n") := by
  refine ⟨?_, ?_, ?_⟩
  · intro h
    simp [Chapter.get_metadata_text, h]
  · intro h1 h2 h3
    simp [Chapter.get_metadata_text, h1, h2, h3]
  · intro s e hs he
    simp [Chapter.get_metadata_text, hs, he, timeValueStr]

/-- Witness for C7: a freshly constructed chapter (timestamps unset) fires
the log condition, and a chapter with both timestamps set renders the fixed
block. -/
theorem get_metadata_text_spec_witness :
    ((Chapter.init "0" "T" []).get_metadata_text).1 = true ∧
    (({ id := "0", title := "T", paragraphs := [], start_time := some 0,
        end_time := some 4000 : Chapter }).get_metadata_text).2 =
      "\n[CHAPTER]\n" ++ "TIMEBASE=1/1000\n" ++
      "START=" ++ toString (0 : ℚ) ++ "\n" ++
      "END=" ++ toString (4000 : ℚ) ++ "\n" ++
      "title=" ++ "T" ++ "\n" := by
  constructor
  · exact (get_metadata_text_spec (Chapter.init "0" "T" [])
      (Chapter.init "0" "T" [])).1 (Or.inl rfl)
  · exact (get_metadata_text_spec
      { id := "0", title := "T", paragraphs := [], start_time := some 0,
        end_time := some 4000 }
      { id := "0", title := "T", paragraphs := [], start_time := some 0,
        end_time := some 4000 }).2.2 0 4000 rfl rfl

/-- C5: `generate_audio` concatenates exactly the audio-typed stream chunks
(in order), a `WordBoundary` chunk anywhere in the stream does not change the
result, the decoded bytes are returned on decoder success, and on decoder
failure (which covers empty text, whose stream contributes no audio bytes)
the result is the zero-length silence `AudioSegment.silent(0).raw_data = []`
rather than an error. -/
theorem generate_audio_spec (from_mp3 : RawAudio → Option RawAudio)
    (chunks pre post : List (String × RawAudio)) (d : RawAudio) :
    streamAudioBytes chunks =
      ((chunks.filter fun ch => ch.1 == "audio").map Prod.snd).flatten ∧
    generate_audio from_mp3 (pre ++ ("WordBoundary", d) :: post) =
      generate_audio from_mp3 (pre ++ post) ∧
    (from_mp3 (streamAudioBytes chunks) = none →
      generate_audio from_mp3 chunks = []) ∧
    (∀ decoded, from_mp3 (streamAudioBytes chunks) = some decoded →
      generate_audio from_mp3 chunks = decoded) := by
  have hwb : streamAudioBytes (pre ++ ("WordBoundary", d) :: post) =
      streamAudioBytes (pre ++ post) := by
    rw [streamAudioBytes_append, streamAudioBytes_append]
    simp [streamAudioBytes]
  refine ⟨streamAudioBytes_eq_filter chunks, ?_, ?_, ?_⟩
  · rw [generate_audio, generate_audio, hwb]
  · intro h
    rw [generate_audio, h]
    rfl
  · intro decoded h
    rw [generate_audio, h]

/-- Witness for C5: with a decoder that always fails the result is empty,
and with a decoder that returns its input the concatenated audio bytes come
back. -/
theorem generate_audio_spec_witness :
    generate_audio (fun _ => none) [("audio", [1, 2])] = [] ∧
    generate_audio (fun b => some b) [("audio", [1, 2]), ("WordBoundary", [9])] =
      [1, 2] := by
  constructor
  · exact (generate_audio_spec (fun _ => none) [("audio", [1, 2])] [] [] []).2.2.1 rfl
  · exact (generate_audio_spec (fun b => some b)
      [("audio", [1, 2]), ("WordBoundary", [9])] [] [] []).2.2.2 [1, 2] rfl

/-- C10: a constructed chapter always has a non-empty title (a blank title is
replaced by `chapter-<id>.mp3`), so `chapter_to_audio` always takes the title
branch: it synthesizes the stored title followed by the title pause before
the interleaved paragraphs. -/
theorem chapter_title_always_present (id title : String) (paragraphs : List String)
    (synth : String → RawAudio) :
    (Chapter.init id title paragraphs).title ≠ "" ∧
    chapter_to_audio synth (Chapter.init id title paragraphs) =
      synth (Chapter.init id title paragraphs).title ++
      generate_pause CHAPTER_TITLE_PAUSE_DURATION ++
      (insert_pauses (paragraphs.map synth) PARAGRAPH_PAUSE_DURATION).flatten := by
  have hne : (Chapter.init id title paragraphs).title ≠ "" := by
    by_cases h : title = ""
    · have ht : (Chapter.init id title paragraphs).title =
          "chapter-" ++ id ++ ".mp3" := by
        simp [Chapter.init, h]
      rw [ht]
      intro hc
      have hlen := congrArg String.length hc
      rw [String.length_append, String.length_append] at hlen
      have h8 : "chapter-".length = 8 := by decide
      have h4 : ".mp3".length = 4 := by decide
      have h0 : "".length = 0 := by decide
      omega
    · simp [Chapter.init, h]
  refine ⟨hne, ?_⟩
  rw [chapter_to_audio, if_pos hne]
  simp [Chapter.init, List.append_assoc]

/-! ## AudioBookGenerator._generate (src/main.py lines 189-216) -/

/-- Oracle operations on decoded audio segments used by the generation loop:
the duration of a segment, decoding a cached chapter file
(`AudioSegment.from_mp3`), synthesizing a chapter
(`tts.chapter_to_audio` then `bytes2audio`), and silence of a given
duration. -/
structure AudioOps (α : Type) where
  duration_seconds : α → ℚ
  from_mp3 : String → α
  synth : Chapter → α
  silent : Nat → α

/-- State threaded through the chapter loop of `_generate`: the set of files
on disk, the running cumulative time in milliseconds, the chapters processed
so far (with their timestamps assigned), their recorded durations in seconds
(a specification ghost mirroring `chapter_audio.duration_seconds`), the
accumulated ffmetadata text, the accumulated book audio, and the number of
synthesizer invocations. -/
structure GenState (α : Type) where
  fs : List String
  time : ℚ
  chapters : List Chapter
  durs : List ℚ
  ffmetadata : String
  bookAudio : List α
  synthCalls : Nat

/-- Embedding of `chapter_save_path = out_folder + "/chapters/" + chapter.title + ".mp3"`. -/
def chapter_save_path (out_folder : String) (c : Chapter) : String :=
  out_folder ++ "/chapters/" ++ c.title ++ ".mp3"

/-- Shared tail of the loop body of `_generate`, after `chapter_audio` has
been obtained (from cache or synthesis): append the chapter audio and the
chapter pause to the book audio, assign `start_time` and `end_time`, advance
the running time, and append the chapter metadata fragment. -/
def advanceChapter {α : Type} (ops : AudioOps α) (st : GenState α) (c : Chapter)
    (chapter_audio : α) (fs' : List String) (calls : Nat) : GenState α :=
  let d := ops.duration_seconds chapter_audio
  let endT := st.time + d * 1000 + (CHAPTER_PAUSE_DURATION : ℚ)
  let c' := { c with start_time := some st.time, end_time := some endT }
  { fs := fs'
    time := endT
    chapters := st.chapters ++ [c']
    durs := st.durs ++ [d]
    ffmetadata := st.ffmetadata ++ (c'.get_metadata_text).2
    bookAudio := st.bookAudio ++ [chapter_audio, ops.silent CHAPTER_PAUSE_DURATION]
    synthCalls := calls }

/-- Loop body of `_generate`: if the chapter cache file exists, decode and
reuse it without invoking the synthesizer; otherwise synthesize the chapter,
count the invocation, and write the file at exactly the cache path. -/
def generateStep {α : Type} (ops : AudioOps α) (out_folder : String)
    (st : GenState α) (c : Chapter) : GenState α :=
  let path := chapter_save_path out_folder c
  if path ∈ st.fs then
    advanceChapter ops st c (ops.from_mp3 path) st.fs st.synthCalls
  else
    advanceChapter ops st c (ops.synth c) (path :: st.fs) (st.synthCalls + 1)

/-- Chapter loop of `_generate` over the selected chapter slice. -/
def generateLoop {α : Type} (ops : AudioOps α) (out_folder : String) :
    GenState α → List Chapter → GenState α
  | st, [] => st
  | st, c :: cs => generateLoop ops out_folder (generateStep ops out_folder st c) cs

/-- State at the top of `_generate`: empty book audio, running time `0.0`,
book-level metadata text, no synthesizer calls yet. -/
def initState {α : Type} (fs0 : List String) (book_metadata : String) : GenState α :=
  { fs := fs0
    time := 0
    chapters := []
    durs := []
    ffmetadata := book_metadata
    bookAudio := []
    synthCalls := 0 }

/-- Embedding of the chapter loop of `_generate` over the selected chapter
range, starting from the initial state. -/
def generateRun {α : Type} (ops : AudioOps α) (out_folder book_metadata : String)
    (fs0 : List String) (cs : List Chapter) : GenState α :=
  generateLoop ops out_folder (initState fs0 book_metadata) cs

/-! ## Timestamp invariant of the generation loop -/

/-- Invariant of the loop state: durations and chapters line up; the running
time is 0 while no chapter has been processed and equals the last chapter
end time afterwards; the first chapter starts at 0; every chapter ends at
its start plus its duration in milliseconds plus the chapter pause; and
consecutive chapters chain start to end. -/
def TimeInv {α : Type} (st : GenState α) : Prop :=
  st.durs.length = st.chapters.length ∧
  (st.chapters = [] → st.time = 0) ∧
  (∀ c : Chapter, st.chapters.head? = some c → c.start_time = some 0) ∧
  (∀ c : Chapter, st.chapters.getLast? = some c → c.end_time = some st.time) ∧
  (∀ (i : Nat) (c : Chapter) (d : ℚ), st.chapters[i]? = some c → st.durs[i]? = some d →
    ∃ s, c.start_time = some s ∧
      c.end_time = some (s + d * 1000 + (CHAPTER_PAUSE_DURATION : ℚ))) ∧
  (∀ (i : Nat) (c c' : Chapter), st.chapters[i]? = some c → st.chapters[i + 1]? = some c' →
    c'.start_time = c.end_time)

lemma timeInv_init {α : Type} (fs0 : List String) (m : String) :
    TimeInv (initState (α := α) fs0 m) := by
  simp [TimeInv, initState]

lemma timeInv_advance {α : Type} (ops : AudioOps α) (st : GenState α)
    (c : Chapter) (a : α) (fs' : List String) (k : Nat) (h : TimeInv st) :
    TimeInv (advanceChapter ops st c a fs' k) := by
  obtain ⟨hlen, hnil, hhead, hlast, hidx, hchain⟩ := h
  simp only [advanceChapter, TimeInv]
  refine ⟨by simp [hlen], by simp, ?_, ?_, ?_, ?_⟩
  · intro x hx
    rw [List.head?_append] at hx
    cases hl : st.chapters with
    | nil =>
      rw [hl] at hx
      simp at hx
      rw [← hx]
      simp [hnil hl]
    | cons y ys =>
      rw [hl] at hx
      simp at hx
      exact hhead x (by rw [hl]; simp [hx])
  · intro x hx
    rw [List.getLast?_concat] at hx
    cases hx
    rfl
  · intro i x dd hx hd
    rw [List.getElem?_append] at hx hd
    rw [hlen] at hd
    by_cases hi : i < st.chapters.length
    · rw [if_pos hi] at hx hd
      exact hidx i x dd hx hd
    · rw [if_neg hi] at hx hd
      have hx0 : i - st.chapters.length = 0 := by
        rcases (List.getElem?_eq_some.mp hx) with ⟨hlt, _⟩
        simp at hlt
        omega
      rw [hx0] at hx hd
      simp at hx hd
      rw [← hx, ← hd]
      exact ⟨st.time, rfl, rfl⟩
  · intro i x y hx hy
    rw [List.getElem?_append] at hx hy
    by_cases hi1 : i + 1 < st.chapters.length
    · rw [if_pos hi1] at hy
      rw [if_pos (by omega)] at hx
      exact hchain i x y hx hy
    · rw [if_neg hi1] at hy
      have hy0 : i + 1 - st.chapters.length = 0 := by
        rcases (List.getElem?_eq_some.mp hy) with ⟨hlt, _⟩
        simp at hlt
        omega
      rw [hy0] at hy
      simp at hy
      have hi : i < st.chapters.length := by omega
      rw [if_pos hi] at hx
      have hil : i = st.chapters.length - 1 := by omega
      have hxlast : st.chapters.getLast? = some x := by
        rw [List.getLast?_eq_getElem?, ← hil]
        exact hx
      rw [← hy]
      simp [hlast x hxlast]

lemma timeInv_step {α : Type} (ops : AudioOps α) (out_folder : String)
    (st : GenState α) (c : Chapter) (h : TimeInv st) :
    TimeInv (generateStep ops out_folder st c) := by
  rw [generateStep]
  by_cases hmem : chapter_save_path out_folder c ∈ st.fs
  · rw [if_pos hmem]
    exact timeInv_advance ops st c _ _ _ h
  · rw [if_neg hmem]
    exact timeInv_advance ops st c _ _ _ h

lemma timeInv_loop {α : Type} (ops : AudioOps α) (out_folder : String)
    (cs : List Chapter) (st : GenState α) (h : TimeInv st) :
    TimeInv (generateLoop ops out_folder st cs) := by
  induction cs generalizing st with
  | nil => exact h
  | cons c rest ih => exact ih _ (timeInv_step ops out_folder st c h)

/-- C1: for every run of the generation loop over a selected chapter range,
the first processed chapter starts at time 0; every processed chapter ends at
its start plus its audio duration in milliseconds plus the fixed chapter
pause; and each next chapter starts exactly where the previous one ended. -/
theorem generate_timestamps {α : Type} (ops : AudioOps α)
    (out_folder book_metadata : String) (fs0 : List String) (cs : List Chapter) :
    (∀ c : Chapter,
      (generateRun ops out_folder book_metadata fs0 cs).chapters.head? = some c →
      c.start_time = some 0) ∧
    (∀ (i : Nat) (c : Chapter) (d : ℚ),
      (generateRun ops out_folder book_metadata fs0 cs).chapters[i]? = some c →
      (generateRun ops out_folder book_metadata fs0 cs).durs[i]? = some d →
      ∃ s, c.start_time = some s ∧
        c.end_time = some (s + d * 1000 + (CHAPTER_PAUSE_DURATION : ℚ))) ∧
    (∀ (i : Nat) (c c' : Chapter),
      (generateRun ops out_folder book_metadata fs0 cs).chapters[i]? = some c →
      (generateRun ops out_folder book_metadata fs0 cs).chapters[i + 1]? = some c' →
      c'.start_time = c.end_time) := by
  have h := timeInv_loop ops out_folder cs (initState fs0 book_metadata)
    (timeInv_init fs0 book_metadata)
  exact ⟨h.2.2.1, h.2.2.2.2.1, h.2.2.2.2.2⟩

/-- Audio operations used by the concrete witnesses: a segment is just its
duration in seconds; cached files decode to 1 second, synthesis yields 2
seconds, silence of n milliseconds has duration n. -/
def qOps : AudioOps ℚ :=
  { duration_seconds := fun q => q
    from_mp3 := fun _ => 1
    synth := fun _ => 2
    silent := fun n => (n : ℚ) }

def wChapterA : Chapter := Chapter.init "0" "A" []

def wChapterB : Chapter := Chapter.init "1" "B" []

/-- Witness for C1: in a concrete two-chapter run with no cache the second
chapter starts exactly where the first ends, and the first starts at 0. -/
theorem generate_timestamps_witness :
    (generateRun qOps "./B" "m" [] [wChapterA, wChapterB]).chapters[1]?.map
        Chapter.start_time =
      (generateRun qOps "./B" "m" [] [wChapterA, wChapterB]).chapters[0]?.map
        Chapter.end_time ∧
    (generateRun qOps "./B" "m" [] [wChapterA, wChapterB]).chapters.head?.map
        Chapter.start_time = some (some 0) := by
  have hlen : (generateRun qOps "./B" "m" [] [wChapterA, wChapterB]).chapters.length
      = 2 := rfl
  have h := generate_timestamps qOps "./B" "m" [] [wChapterA, wChapterB]
  cases hc0 : (generateRun qOps "./B" "m" [] [wChapterA, wChapterB]).chapters[0]? with
  | none =>
    rw [List.getElem?_eq_none_iff, hlen] at hc0
    omega
  | some c0 =>
    cases hc1 : (generateRun qOps "./B" "m" [] [wChapterA, wChapterB]).chapters[1]? with
    | none =>
      rw [List.getElem?_eq_none_iff, hlen] at hc1
      omega
    | some c1 =>
      have hchain := h.2.2 0 c0 c1 hc0 hc1
      have hh : (generateRun qOps "./B" "m" [] [wChapterA, wChapterB]).chapters.head?
          = some c0 := by
        rw [List.head?_eq_getElem?]
        exact hc0
      have hstart := h.1 c0 hh
      refine ⟨?_, ?_⟩
      · simp [hchain]
      · rw [hh]
        simp [hstart]

/-- C4: the cache path of a chapter is computed from the (defaulted) chapter
title as `out_folder/chapters/<title>.mp3`; when that file exists the step
does not invoke the synthesizer, decodes the existing file into the book
audio and writes nothing; otherwise the synthesizer is invoked once and the
file is written at exactly that path. -/
theorem chapter_cache_step {α : Type} (ops : AudioOps α) (out_folder : String)
    (st : GenState α) (c : Chapter) :
    chapter_save_path out_folder c = out_folder ++ "/chapters/" ++ c.title ++ ".mp3" ∧
    (chapter_save_path out_folder c ∈ st.fs →
      (generateStep ops out_folder st c).synthCalls = st.synthCalls ∧
      (generateStep ops out_folder st c).fs = st.fs ∧
      (generateStep ops out_folder st c).bookAudio =
        st.bookAudio ++ [ops.from_mp3 (chapter_save_path out_folder c),
          ops.silent CHAPTER_PAUSE_DURATION]) ∧
    (chapter_save_path out_folder c ∉ st.fs →
      (generateStep ops out_folder st c).synthCalls = st.synthCalls + 1 ∧
      (generateStep ops out_folder st c).fs = chapter_save_path out_folder c :: st.fs ∧
      (generateStep ops out_folder st c).bookAudio =
        st.bookAudio ++ [ops.synth c, ops.silent CHAPTER_PAUSE_DURATION]) := by
  refine ⟨rfl, ?_, ?_⟩
  · intro hmem
    rw [generateStep]
    simp only [hmem, if_pos]
    exact ⟨rfl, rfl, rfl⟩
  · intro hmem
    rw [generateStep]
    simp only [if_neg hmem]
    exact ⟨rfl, rfl, rfl⟩

def wStateEmpty : GenState ℚ := initState [] ""

def wStateCached : GenState ℚ :=
  { wStateEmpty with fs := ["./B/chapters/A.mp3"] }

/-- Witness for C4: with the cache file on disk the step makes no synthesizer
call and leaves the file set unchanged; without it the step makes one call
and writes exactly the cache path. -/
theorem chapter_cache_step_witness :
    (generateStep qOps "./B" wStateCached wChapterA).synthCalls =
      wStateCached.synthCalls ∧
    (generateStep qOps "./B" wStateCached wChapterA).fs = wStateCached.fs ∧
    (generateStep qOps "./B" wStateEmpty wChapterA).synthCalls =
      wStateEmpty.synthCalls + 1 ∧
    (generateStep qOps "./B" wStateEmpty wChapterA).fs = ["./B/chapters/A.mp3"] := by
  have hhit := (chapter_cache_step qOps "./B" wStateCached wChapterA).2.1 (by decide)
  have hmiss := (chapter_cache_step qOps "./B" wStateEmpty wChapterA).2.2 (by decide)
  refine ⟨hhit.1, hhit.2.1, hmiss.1, ?_⟩
  rw [hmiss.2.1]
  rfl

/-! ## AudioBookGenerator._save_cover_image (src/main.py lines 238-261) -/

def DEFAULT_COVER_PATH : String := "./default_cover.jpg"

def SUPPORTED_IMAGE_FORMATS : List String := ["jpeg", "png", "gif", "bmp", "tiff"]

/-- Embedding of `AudioBookGenerator._save_cover_image`. The oracles stand
for the wrapped library calls: `b64decode` returns `none` when
`base64.b64decode` raises `binascii.Error`; `image_open` returns the
lowercased image format, or `none` when `Image.open` raises
`UnidentifiedImageError`; `image_save` returns `false` when `image.save`
raises `IOError`. Every failure path is caught and yields the default
placeholder path, so the function is total and never propagates an
exception. -/
def save_cover_image (out_folder : String) (cover_base64 : Option String)
    (b64decode : String → Option (List Nat))
    (image_open : List Nat → Option String)
    (image_save : String → Bool) : String :=
  match cover_base64 with
  | none => DEFAULT_COVER_PATH
  | some blob =>
    if blob = "" then DEFAULT_COVER_PATH
    else
      match b64decode blob with
      | none => DEFAULT_COVER_PATH
      | some cover_data =>
        match image_open cover_data with
        | none => DEFAULT_COVER_PATH
        | some image_format =>
          if image_format ∈ SUPPORTED_IMAGE_FORMATS then
            let cover_path := out_folder ++ "/cover." ++ image_format
            if image_save cover_path then cover_path else DEFAULT_COVER_PATH
          else DEFAULT_COVER_PATH

/-- C6: cover extraction returns the default placeholder path on a missing or
empty cover blob, on a base64 decode failure, on an unidentifiable image, on
a format outside JPEG/PNG/GIF/BMP/TIFF, and on a write error; for a valid
supported image it returns the real cover file path
`<out_folder>/cover.<format>`; being a total function, it never propagates an
exception. -/
theorem save_cover_image_spec (out_folder : String) (cover : Option String)
    (b64decode : String → Option (List Nat)) (image_open : List Nat → Option String)
    (image_save : String → Bool) :
    (cover = none →
      save_cover_image out_folder cover b64decode image_open image_save =
        DEFAULT_COVER_PATH) ∧
    (cover = some "" →
      save_cover_image out_folder cover b64decode image_open image_save =
        DEFAULT_COVER_PATH) ∧
    (∀ blob, cover = some blob → b64decode blob = none →
      save_cover_image out_folder cover b64decode image_open image_save =
        DEFAULT_COVER_PATH) ∧
    (∀ blob data, cover = some blob → b64decode blob = some data →
      image_open data = none →
      save_cover_image out_folder cover b64decode image_open image_save =
        DEFAULT_COVER_PATH) ∧
    (∀ blob data fmt, cover = some blob → b64decode blob = some data →
      image_open data = some fmt → fmt ∉ SUPPORTED_IMAGE_FORMATS →
      save_cover_image out_folder cover b64decode image_open image_save =
        DEFAULT_COVER_PATH) ∧
    (∀ blob data fmt, cover = some blob → b64decode blob = some data →
      image_open data = some fmt → fmt ∈ SUPPORTED_IMAGE_FORMATS →
      image_save (out_folder ++ "/cover." ++ fmt) = false →
      save_cover_image out_folder cover b64decode image_open image_save =
        DEFAULT_COVER_PATH) ∧
    (∀ blob data fmt, cover = some blob → blob ≠ "" → b64decode blob = some data →
      image_open data = some fmt → fmt ∈ SUPPORTED_IMAGE_FORMATS →
      image_save (out_folder ++ "/cover." ++ fmt) = true →
      save_cover_image out_folder cover b64decode image_open image_save =
        out_folder ++ "/cover." ++ fmt) := by
  refine ⟨?_, ?_, ?_, ?_, ?_, ?_, ?_⟩
  · intro h
    rw [h, save_cover_image]
  · intro h
    rw [h, save_cover_image]
    simp
  · intro blob hc hb
    rw [hc, save_cover_image]
    by_cases hblob : blob = ""
    · simp [hblob]
    · simp [hblob, hb]
  · intro blob data hc hb hio
    rw [hc, save_cover_image]
    by_cases hblob : blob = ""
    · simp [hblob]
    · simp [hblob, hb, hio]
  · intro blob data fmt hc hb hio hfmt
    rw [hc, save_cover_image]
    by_cases hblob : blob = ""
    · simp [hblob]
    · simp [hblob, hb, hio, hfmt]
  · intro blob data fmt hc hb hio hfmt hsave
    rw [hc, save_cover_image]
    by_cases hblob : blob = ""
    · simp [hblob]
    · simp [hblob, hb, hio, hfmt, hsave]
  · intro blob data fmt hc hblob hb hio hfmt hsave
    rw [hc, save_cover_image]
    simp [hblob, hb, hio, hfmt, hsave]

/-- Witness for C6: a missing blob yields the placeholder, and a valid PNG
blob yields the real cover path. -/
theorem save_cover_image_spec_witness :
    save_cover_image "./B" none (fun _ => some [1]) (fun _ => some "png")
      (fun _ => true) = DEFAULT_COVER_PATH ∧
    save_cover_image "./B" (some "x") (fun _ => some [1]) (fun _ => some "png")
      (fun _ => true) = "./B" ++ "/cover." ++ "png" := by
  constructor
  · exact (save_cover_image_spec "./B" none (fun _ => some [1]) (fun _ => some "png")
      (fun _ => true)).1 rfl
  · exact (save_cover_image_spec "./B" (some "x") (fun _ => some [1])
      (fun _ => some "png") (fun _ => true)).2.2.2.2.2.2 "x" [1] "png" rfl
      (by decide) rfl rfl (by decide) rfl

/-! ## Chapter range validation (src/main.py lines 282-293) -/

/-- Embedding of the range check in `__main__`: after listing the chapters,
the user-supplied inclusive range is validated; an invalid range logs an
error and calls `sys.exit(1)` (a `SystemExit` that the surrounding
`except Exception` does not catch) before `generate()` runs, so the
synthesizer is never invoked. The result is the pair (exit status, number of
synthesizer invocations), where `gen_synth_calls` is the number of
invocations the generation run would perform. -/
def main_range_flow (start_chapter end_chapter : Int) (toc_len : Nat)
    (gen_synth_calls : Nat) : Int × Nat :=
  if start_chapter < 0 ∨ end_chapter > (toc_len : Int) - 1 ∨
      start_chapter > end_chapter then
    (1, 0)
  else
    (0, gen_synth_calls)

/-- C8: for every chapter range with a negative start, an end beyond the last
0-based index, or start greater than end, the program exits with status 1 —
a non-zero status — and performs zero synthesizer invocations. -/
theorem invalid_range_exits (s e : Int) (n k : Nat)
    (h : s < 0 ∨ e > (n : Int) - 1 ∨ s > e) :
    main_range_flow s e n k = (1, 0) ∧
    (main_range_flow s e n k).1 ≠ 0 ∧
    (main_range_flow s e n k).2 = 0 := by
  rw [main_range_flow, if_pos h]
  exact ⟨rfl, by decide, rfl⟩

/-- Witness for C8 at the spec scenario: start 3, end 1, 2 chapters. -/
theorem invalid_range_exits_witness :
    main_range_flow 3 1 2 5 = (1, 0) :=
  (invalid_range_exits 3 1 2 5 (by decide)).1

/-! ## AudioBookGenerator._bind_metadata (src/main.py lines 218-236) -/

structure BindResult where
  fs : List String
  raised : Bool
  muxer_exit : Int
  muxer_inputs : List String
deriving Repr, DecidableEq

/-- Embedding of `AudioBookGenerator._bind_metadata`: the metadata text is
written to `<out_folder>/ffmetadata.txt`, then the muxer subprocess is run
once on the three inputs (track, metadata file, cover image). The call is
`subprocess.run` without `check`, so a non-zero exit status is surfaced in
the returned completed-process value and no exception is raised; nothing is
deleted, and only a successful muxer writes the `.m4b` output next to the
track. -/
def bind_metadata (fs : List String) (out_folder audiobook_path cover_path : String)
    (muxer_exit : Int) : BindResult :=
  let ffmetadata_path := out_folder ++ "/ffmetadata.txt"
  let fs1 := ffmetadata_path :: fs
  let fs2 := if muxer_exit = 0 then
      (audiobook_path.dropRight 4 ++ ".m4b") :: fs1
    else fs1
  { fs := fs2
    raised := false
    muxer_exit := muxer_exit
    muxer_inputs := [audiobook_path, ffmetadata_path, cover_path] }

/-- C9: when the muxer exits non-zero, no exception is raised out of the
binding step, the intermediate combined track and the freshly written
metadata file are still on disk, and the non-zero exit status is surfaced in
the returned value (the only report the code makes). -/
theorem muxer_failure_nonfatal (fs : List String) (o a c : String) (e : Int)
    (hmem : a ∈ fs) (he : e ≠ 0) :
    (bind_metadata fs o a c e).raised = false ∧
    a ∈ (bind_metadata fs o a c e).fs ∧
    (o ++ "/ffmetadata.txt") ∈ (bind_metadata fs o a c e).fs ∧
    (bind_metadata fs o a c e).muxer_exit = e := by
  refine ⟨rfl, ?_, ?_, rfl⟩
  · simp [bind_metadata, he, hmem]
  · simp [bind_metadata, he]

/-- Witness for C9: a concrete failing muxer invocation keeps the track and
metadata file and raises nothing. -/
theorem muxer_failure_nonfatal_witness :
    (bind_metadata ["./B/t.m4a"] "./B" "./B/t.m4a" "./B/cover.png" 1).raised = false ∧
    "./B/t.m4a" ∈ (bind_metadata ["./B/t.m4a"] "./B" "./B/t.m4a" "./B/cover.png" 1).fs ∧
    ("./B" ++ "/ffmetadata.txt") ∈
      (bind_metadata ["./B/t.m4a"] "./B" "./B/t.m4a" "./B/cover.png" 1).fs ∧
    (bind_metadata ["./B/t.m4a"] "./B" "./B/t.m4a" "./B/cover.png" 1).muxer_exit = 1 :=
  muxer_failure_nonfatal ["./B/t.m4a"] "./B" "./B/t.m4a" "./B/cover.png" 1
    (by decide) (by decide)

end AudiobookTTS
